import Mathlib

/-!
Verification of the Wati trigger webhook core (`WatiTrigger.webhook` in
`src/nodes/Wati/WatiTrigger.node.ts`): payload acquisition and event
classification, embedded shallowly over a JavaScript value model.
-/

/-- A JSON-compatible JavaScript value. Numbers keep their source lexeme:
no claim computes with numeric values, and the only number-sensitive
operation (property-key coercion) cannot change any `eventTypeMap` lookup
because the map has no numeric keys. -/
inductive JsonValue where
  | null : JsonValue
  | bool (b : Bool) : JsonValue
  | num (lexeme : String) : JsonValue
  | str (s : String) : JsonValue
  | arr (elems : List JsonValue) : JsonValue
  | obj (fields : List (String × JsonValue)) : JsonValue

/-- A value as it may appear in `getBodyData()` or `req.body`: a JSON
value, a Node `Buffer` (kept as its UTF-8 decoding), or `undefined`. -/
inductive JsValue where
  | json (v : JsonValue) : JsValue
  | buffer (content : String) : JsValue
  | undef : JsValue

/-- The only JavaScript exception the webhook can raise:
`Object.keys(null)` throws a `TypeError`. -/
inductive JsError where
  | typeError : JsError
  deriving DecidableEq, Repr

/-- Truthiness of a number lexeme: a JSON number is falsy exactly when its
value is zero, i.e. its mantissa has no digit `1`..`9`. -/
def numLexemeIsZero (lex : String) : Bool :=
  (lex.takeWhile (fun c => c != 'e' && c != 'E')).all
    (fun c => c == '-' || c == '0' || c == '.')

/-- JavaScript truthiness. -/
def jsTruthy : JsonValue → Bool
  | .null => false
  | .bool b => b
  | .num lex => !(numLexemeIsZero lex)
  | .str s => s != ""
  | .arr _ => true
  | .obj _ => true

/-- `Array.prototype.toString`: elements joined with commas, `null`
elements rendering as the empty string and nested arrays recursing. -/
def jsArrJoin : List JsonValue → String
  | [] => ""
  | x :: xs =>
      let e : String :=
        match x with
        | JsonValue.null => ""
        | JsonValue.bool b => if b then "true" else "false"
        | JsonValue.num lex => lex
        | JsonValue.str s => s
        | JsonValue.arr ys => jsArrJoin ys
        | JsonValue.obj _ => "[object Object]"
      match xs with
      | [] => e
      | y :: ys => e ++ "," ++ jsArrJoin (y :: ys)
termination_by xs => sizeOf xs
decreasing_by all_goals (simp_wf; try omega)

/-- JavaScript `String(v)` coercion, as used on a computed property key. -/
def jsToString : JsonValue → String
  | .null => "null"
  | .bool b => if b then "true" else "false"
  | .num lex => lex
  | .str s => s
  | .arr xs => jsArrJoin xs
  | .obj _ => "[object Object]"

/-- `Object.keys(v)`: own enumerable keys. Throws `TypeError` on `null`;
boxed number and boolean primitives have none; strings and arrays expose
their indices; plain objects their field names. -/
def jsObjectKeys : JsonValue → Except JsError (List String)
  | .null => .error .typeError
  | .bool _ => .ok []
  | .num _ => .ok []
  | .str s => .ok ((List.range s.length).map (fun i => toString i))
  | .arr xs => .ok ((List.range xs.length).map (fun i => toString i))
  | .obj fs => .ok (fs.map Prod.fst)

/-- A canonical array-index key: a nonempty all-digit string with no
leading zero (`0` itself aside), the only string keys JavaScript treats
as element indices. -/
def arrayIndex? (key : String) : Option Nat :=
  match key.data with
  | [] => none
  | ['0'] => some 0
  | c :: cs =>
      if c.isDigit && c != '0' && cs.all Char.isDigit then
        some ((c :: cs).foldl (fun acc d => acc * 10 + (d.toNat - 48)) 0)
      else none

/-- JavaScript property read `v[key]` for the non-null values the
classifier can see (`null` cannot reach it: the diagnostic-fallback guard
throws first). Boxed numbers and booleans expose none of the keys the
classifier probes. -/
def jsGetField (v : JsonValue) (key : String) : Option JsonValue :=
  match v with
  | .obj fs => fs.lookup key
  | .arr xs =>
      match arrayIndex? key with
      | some i => xs.get? i
      | none => none
  | .str s =>
      if key = "length" then some (.num (toString s.length))
      else
        match arrayIndex? key with
        | some i => (s.data.get? i).map (fun c => .str (String.mk [c]))
        | none => none
  | _ => none

/-- Whitespace accepted by `JSON.parse`. -/
def jsonWs (c : Char) : Bool := c == ' ' || c == '\t' || c == '\n' || c == '\r'

/-- Drop leading JSON whitespace. -/
def skipWs : List Char → List Char
  | [] => []
  | c :: cs => if jsonWs c then skipWs cs else c :: cs

/-- One hexadecimal digit, by code point: `0`-`9` are 48-57, `A`-`F` are
65-70, `a`-`f` are 97-102. -/
def hexVal (c : Char) : Option Nat :=
  let n := c.toNat
  if 48 ≤ n ∧ n ≤ 57 then some (n - 48)
  else if 65 ≤ n ∧ n ≤ 70 then some (n - 55)
  else if 97 ≤ n ∧ n ≤ 102 then some (n - 87)
  else none

/-- Parse the remainder of a JSON string literal (after the opening
quote): JSON escape sequences, no unescaped control characters. -/
def parseStringBody : List Char → List Char → Option (String × List Char)
  | acc, '"' :: cs => some (String.mk acc.reverse, cs)
  | acc, '\\' :: e :: cs =>
      match e with
      | '"' => parseStringBody ('"' :: acc) cs
      | '\\' => parseStringBody ('\\' :: acc) cs
      | '/' => parseStringBody ('/' :: acc) cs
      | 'b' => parseStringBody ('\x08' :: acc) cs
      | 'f' => parseStringBody ('\x0c' :: acc) cs
      | 'n' => parseStringBody ('\n' :: acc) cs
      | 'r' => parseStringBody ('\r' :: acc) cs
      | 't' => parseStringBody ('\t' :: acc) cs
      | 'u' =>
          match cs with
          | h1 :: h2 :: h3 :: h4 :: rest =>
              match hexVal h1, hexVal h2, hexVal h3, hexVal h4 with
              | some a, some b, some c, some d =>
                  parseStringBody
                    (Char.ofNat (((a * 16 + b) * 16 + c) * 16 + d) :: acc) rest
              | _, _, _, _ => none
          | _ => none
      | _ => none
  | acc, c :: cs => if c.toNat ≥ 0x20 then parseStringBody (c :: acc) cs else none
  | _, [] => none

/-- Take a maximal run of decimal digits. -/
def takeDigits : List Char → List Char × List Char
  | [] => ([], [])
  | c :: cs =>
      if c.isDigit then
        let p := takeDigits cs
        (c :: p.1, p.2)
      else ([], c :: cs)

/-- Optional JSON fraction part. -/
def parseFrac : List Char → Option (List Char × List Char)
  | '.' :: cs =>
      match cs with
      | c :: _ =>
          if c.isDigit then
            let p := takeDigits cs
            some ('.' :: p.1, p.2)
          else none
      | [] => none
  | cs => some ([], cs)

/-- Optional JSON exponent part. -/
def parseExp : List Char → Option (List Char × List Char)
  | c :: cs =>
      if c == 'e' || c == 'E' then
        let sp : List Char × List Char :=
          match cs with
          | s :: rest => if s == '+' || s == '-' then ([s], rest) else ([], cs)
          | [] => ([], [])
        match sp.2 with
        | d :: _ =>
            if d.isDigit then
              let p := takeDigits sp.2
              some (c :: sp.1 ++ p.1, p.2)
            else none
        | [] => none
      else some ([], c :: cs)
  | [] => some ([], [])

/-- Parse a JSON number, returning its exact lexeme:
`-? (0 | [1-9][0-9]*) (. [0-9]+)? ([eE] [+-]? [0-9]+)?`. -/
def parseNumberLex (cs : List Char) : Option (String × List Char) :=
  let sp : List Char × List Char :=
    match cs with
    | '-' :: rest => (['-'], rest)
    | _ => ([], cs)
  let intPart : Option (List Char × List Char) :=
    match sp.2 with
    | '0' :: rest => some (sp.1 ++ ['0'], rest)
    | c :: rest =>
        if c.isDigit then
          let p := takeDigits rest
          some (sp.1 ++ c :: p.1, p.2)
        else none
    | [] => none
  match intPart with
  | none => none
  | some (ip, r1) =>
      match parseFrac r1 with
      | none => none
      | some (fp, r2) =>
          match parseExp r2 with
          | none => none
          | some (ep, r3) => some (String.mk (ip ++ fp ++ ep), r3)

/-- Expect an exact sequence of characters. -/
def expectChars : List Char → List Char → Option (List Char)
  | [], cs => some cs
  | k :: ks, c :: cs => if c = k then expectChars ks cs else none
  | _ :: _, [] => none

/-- Assign one object member as `JSON.parse` does: a duplicate key keeps
its first position but takes the later value. -/
def objInsert (fs : List (String × JsonValue)) (k : String) (v : JsonValue) :
    List (String × JsonValue) :=
  match fs with
  | [] => [(k, v)]
  | (k0, v0) :: rest =>
      if k0 = k then (k0, v) :: rest else (k0, v0) :: objInsert rest k v

mutual

/-- Fuel-indexed recursive-descent parser for one JSON value. -/
def parseJsonValue : Nat → List Char → Option (JsonValue × List Char)
  | 0, _ => none
  | fuel + 1, cs =>
    match skipWs cs with
    | 'n' :: rest => (expectChars ['u', 'l', 'l'] rest).map (fun r => (JsonValue.null, r))
    | 't' :: rest => (expectChars ['r', 'u', 'e'] rest).map (fun r => (JsonValue.bool true, r))
    | 'f' :: rest => (expectChars ['a', 'l', 's', 'e'] rest).map (fun r => (JsonValue.bool false, r))
    | '"' :: rest => (parseStringBody [] rest).map (fun p => (JsonValue.str p.1, p.2))
    | '[' :: rest =>
        match skipWs rest with
        | ']' :: r2 => some (JsonValue.arr [], r2)
        | r2 =>
            match parseElems fuel r2 with
            | some (xs, r3) => some (JsonValue.arr xs, r3)
            | none => none
    | '{' :: rest =>
        match skipWs rest with
        | '}' :: r2 => some (JsonValue.obj [], r2)
        | r2 =>
            match parseMembers fuel r2 with
            | some (fs, r3) =>
                some (JsonValue.obj (fs.foldl (fun acc p => objInsert acc p.1 p.2) []), r3)
            | none => none
    | cs1 => (parseNumberLex cs1).map (fun p => (JsonValue.num p.1, p.2))

/-- Comma-separated array elements up to the closing bracket. -/
def parseElems : Nat → List Char → Option (List JsonValue × List Char)
  | 0, _ => none
  | fuel + 1, cs =>
    match parseJsonValue fuel cs with
    | none => none
    | some (v, rest) =>
        match skipWs rest with
        | ',' :: r2 =>
            match parseElems fuel r2 with
            | some (xs, r3) => some (v :: xs, r3)
            | none => none
        | ']' :: r2 => some ([v], r2)
        | _ => none

/-- Comma-separated object members up to the closing brace, in source
order with duplicates kept. -/
def parseMembers : Nat → List Char → Option (List (String × JsonValue) × List Char)
  | 0, _ => none
  | fuel + 1, cs =>
    match skipWs cs with
    | '"' :: rest =>
        match parseStringBody [] rest with
        | none => none
        | some (k, r1) =>
            match skipWs r1 with
            | ':' :: r2 =>
                match parseJsonValue fuel r2 with
                | none => none
                | some (v, r3) =>
                    match skipWs r3 with
                    | ',' :: r4 =>
                        match parseMembers fuel r4 with
                        | some (fs, r5) => some ((k, v) :: fs, r5)
                        | none => none
                    | '}' :: r4 => some ([(k, v)], r4)
                    | _ => none
            | _ => none
    | _ => none

end

/-- `JSON.parse`: parse one JSON text, allowing only trailing whitespace
after the value; `none` on any syntax error. The fuel bound exceeds the
recursion depth of any input that parses. -/
def jsonParse (s : String) : Option JsonValue :=
  match parseJsonValue (2 * s.length + 4) s.data with
  | some (v, rest) => if skipWs rest = [] then some v else none
  | none => none

example : jsonParse "null" = some JsonValue.null := rfl
example : jsonParse "\x7b\x7d" = some (JsonValue.obj []) := rfl
example : jsonParse " \x7b \"a\" : 1 , \"b\" : [true, \"x\"] \x7d " =
    some (JsonValue.obj [("a", JsonValue.num "1"),
      ("b", JsonValue.arr [JsonValue.bool true, JsonValue.str "x"])]) := rfl
example : jsonParse "hello" = none := rfl
example : jsonParse "\x7b\"a\":1,\"a\":2\x7d" =
    some (JsonValue.obj [("a", JsonValue.num "2")]) := rfl
example : jsonParse "-0.25e+2" = some (JsonValue.num "-0.25e+2") := rfl
example : jsonParse "01" = none := rfl
example : jsonParse "\"a\\nb\"" = some (JsonValue.str "a\nb") := rfl

/-- The transport-level inputs `WatiTrigger.webhook` reads from the host:
`getBodyData()` (which may throw), `req.readRawBody` (absent, throwing, or
succeeding), `req.rawBody` as observed after the drain attempt (UTF-8
text of the buffer), `req.body`, `req.method`, the `content-type` header,
`getQueryData()`, and the configured `event` node parameter. -/
structure RawRequest where
  parsedBody : Except Unit JsValue
  readRawBody : Option Bool
  rawBody : Option String
  reqBody : JsValue
  method : String
  contentType : Option String
  query : List (String × JsonValue)
  event : String

/-- `eventTypeMap` from `WatiTrigger.webhook`: upstream event-type key to
filter value. A Lean `def` cannot be mutated, matching the source where
the literal is rebuilt per call and never written to. -/
def eventTypeMap : List (String × String) :=
  [("message", "messageReceived"),
   ("whatsappMessageReceived", "messageReceived"),
   ("newContactMessage", "newContactMessage"),
   ("sessionMessageSent", "sessionMessageSent"),
   ("templateMessageSent", "templateMessageSent"),
   ("messageDelivered", "messageDelivered"),
   ("messageRead", "messageRead"),
   ("messageReplied", "messageReplied"),
   ("templateMessageFailed", "templateMessageFailed")]

/-- The `event` option values offered by the node besides `all`. -/
def watiEventFilters : List String :=
  ["messageReceived", "newContactMessage", "sessionMessageSent",
   "templateMessageSent", "messageDelivered", "messageRead",
   "messageReplied", "templateMessageFailed"]

/-- `JSON.parse` the recovered text, or wrap it under `rawData` when it
does not decode (strategies 2 and 3 share this rule). -/
def decodeOrWrap (s : String) : JsonValue :=
  match jsonParse s with
  | some v => v
  | none => JsonValue.obj [("rawData", JsonValue.str s)]

/-- Strategy 1: the body after `getBodyData()` — kept only when it is a
truthy non-Buffer `object` (`parsed && typeof parsed === 'object' &&
!Buffer.isBuffer(parsed)`), else the initial `{}`. -/
def step1 (r : RawRequest) : JsonValue :=
  match r.parsedBody with
  | .ok (.json (.obj fs)) => .obj fs
  | .ok (.json (.arr xs)) => .arr xs
  | _ => .obj []

/-- The text strategy 2 recovers: `req.rawBody` when
`rawBody && rawBody.length > 0` (an empty Buffer is truthy but fails the
length test). -/
def rawRecovered (r : RawRequest) : Option String :=
  match r.rawBody with
  | some s => if s.length > 0 then some s else none
  | none => none

/-- Strategy 2: the body after the drain-and-parse step, given that it
runs: recovered `req.rawBody` text is decoded or wrapped, anything else
leaves the body unchanged. -/
def step2 (r : RawRequest) : JsonValue :=
  match rawRecovered r with
  | some s => decodeOrWrap s
  | none => step1 r

/-- The text strategy 3 recovers from `req.body`: any Buffer (truthy even
when empty, and `Buffer.isBuffer` matches before the length test), or a
nonempty string; other values take neither branch. -/
def directContent : JsValue → Option String
  | .buffer s => some s
  | .json (.str s) => if s != "" then some s else none
  | _ => none

/-- Strategy 3: the body after the direct `req.body` inspection, given
that it runs: recovered content is decoded or wrapped, anything else
leaves the body unchanged. -/
def step3 (r : RawRequest) (body : JsonValue) : JsonValue :=
  match directContent r.reqBody with
  | some s => decodeOrWrap s
  | none => body

/-- Sentinel rule for the diagnostic record:
`(headers['content-type'] as string) || 'not set'`. -/
def contentTypeOrSentinel (r : RawRequest) : String :=
  match r.contentType with
  | some s => if s != "" then s else "not set"
  | none => "not set"

/-- Strategy 4: the synthetic diagnostic body. -/
def diagnosticBody (r : RawRequest) : JsonValue :=
  JsonValue.obj
    [("_webhookReceived", JsonValue.bool true),
     ("_bodyEmpty", JsonValue.bool true),
     ("_contentType", JsonValue.str (contentTypeOrSentinel r)),
     ("_method", JsonValue.str r.method),
     ("_query", JsonValue.obj r.query)]

/-- Result of payload acquisition: the resolved body (or the JavaScript
exception that escaped), whether the raw-stream drain step ran, and
whether `req.body` was read (the short-circuited right operand of the
strategy-3 guard). -/
structure AcquireOutcome where
  body : Except JsError JsonValue
  drainAttempted : Bool
  directBodyRead : Bool

/-- Payload acquisition, lines 294-355 of `WatiTrigger.node.ts`: the four
strategies in order, each guarded by `Object.keys(body).length === 0` on
the current body (which throws on a body of JSON `null`). -/
def acquire (r : RawRequest) : AcquireOutcome :=
  let b1 := step1 r
  match jsObjectKeys b1 with
  | .error e => ⟨.error e, false, false⟩
  | .ok ks1 =>
    if ks1.length = 0 then
      let b2 := step2 r
      match jsObjectKeys b2 with
      | .error e => ⟨.error e, true, false⟩
      | .ok ks2 =>
        if ks2.length = 0 then
          let b3 := step3 r b2
          match jsObjectKeys b3 with
          | .error e => ⟨.error e, true, true⟩
          | .ok ks3 =>
            if ks3.length = 0 then ⟨.ok (diagnosticBody r), true, true⟩
            else ⟨.ok b3, true, true⟩
        else ⟨.ok b2, true, false⟩
    else ⟨.ok b1, false, false⟩

/-- A JavaScript `||` chain over possibly-absent values, defaulting to
`''`: the first truthy candidate wins (`undefined` and falsy values fall
through). -/
def orChainEmpty : List (Option JsonValue) → JsonValue
  | [] => JsonValue.str ""
  | some v :: rest => if jsTruthy v then v else orChainEmpty rest
  | none :: rest => orChainEmpty rest

/-- The raw event type:
`(body.eventType as string) || (body.event as string) || (body.type as string) || ''`. -/
def extractEventType (body : JsonValue) : JsonValue :=
  orChainEmpty
    [jsGetField body "eventType", jsGetField body "event", jsGetField body "type"]

/-- `eventTypeMap[eventType] || eventType`. Own-key lookup: inherited
`Object.prototype` members are not modelled, which cannot change the
compared outcome for any filter drawn from the node's option values. -/
def mappedEvent (et : JsonValue) : JsonValue :=
  match eventTypeMap.lookup (jsToString et) with
  | some m => JsonValue.str m
  | none => et

/-- `mappedEvent !== event` negated: strict equality of the mapped event
against the configured filter string. -/
def classifyPass (body : JsonValue) (event : String) : Bool :=
  match mappedEvent (extractEventType body) with
  | JsonValue.str s => s == event
  | _ => false

/-- `this.helpers.returnJsonArray(body)`, line 388: an array body is
fanned out to one item per element; any other body becomes the single
item itself. -/
def returnJsonArray : JsonValue → List JsonValue
  | .arr xs => xs
  | v => [v]

/-- The emitted items for a resolved body, lines 371-390: the
`returnJsonArray` of the body on pass, the empty collection on filter
reject. -/
def dispatchItems (body : JsonValue) (event : String) : List JsonValue :=
  if event != "all" then
    if classifyPass body event then returnJsonArray body else []
  else returnJsonArray body

/-- Outcome of one webhook delivery: the emitted item collection (or the
escaped exception) plus the acquisition effect flags. -/
structure WebhookOutcome where
  result : Except JsError (List JsonValue)
  drainAttempted : Bool
  directBodyRead : Bool

/-- `WatiTrigger.webhook`, lines 289-391: acquire the body, then filter
and emit. -/
def webhook (r : RawRequest) : WebhookOutcome :=
  match acquire r with
  | ⟨.error e, d, c⟩ => ⟨.error e, d, c⟩
  | ⟨.ok body, d, c⟩ => ⟨.ok (dispatchItems body r.event), d, c⟩

example : (webhook ⟨.ok (.json (.obj [("eventType", .str "messageDelivered")])),
    none, none, .undef, "POST", none, [], "messageDelivered"⟩).result =
    Except.ok [JsonValue.obj [("eventType", JsonValue.str "messageDelivered")]] := rfl

example : (webhook ⟨.ok (.json (.obj [("eventType", .str "messageDelivered")])),
    none, none, .undef, "POST", none, [], "messageRead"⟩).result = Except.ok [] := rfl

example : (webhook ⟨.ok (.json (.obj [("type", .str "unknownVendorEvent")])),
    none, none, .undef, "POST", none, [], "unknownVendorEvent"⟩).result =
    Except.ok [JsonValue.obj [("type", JsonValue.str "unknownVendorEvent")]] := rfl

example : (webhook ⟨.ok .undef, some false, some "null", .undef,
    "POST", none, [], "all"⟩).result = Except.error JsError.typeError := rfl

example : (webhook ⟨.ok .undef, none, none, .undef,
    "POST", none, [("q", JsonValue.str "1")], "all"⟩).result =
    Except.ok [JsonValue.obj
      [("_webhookReceived", JsonValue.bool true),
       ("_bodyEmpty", JsonValue.bool true),
       ("_contentType", JsonValue.str "not set"),
       ("_method", JsonValue.str "POST"),
       ("_query", JsonValue.obj [("q", JsonValue.str "1")])]] := rfl

/-- The classifier's effective category for a string-typed raw event
type: its `eventTypeMap` translation, or the raw string unchanged when no
entry exists. -/
def effectiveCategory (s : String) : String :=
  (eventTypeMap.lookup s).getD s

theorem mappedEvent_str (s : String) :
    mappedEvent (JsonValue.str s) = JsonValue.str (effectiveCategory s) := by
  unfold mappedEvent effectiveCategory jsToString
  rcases h : eventTypeMap.lookup s with _ | m <;> simp [h]

theorem classifyPass_str {body : JsonValue} {s : String} (event : String)
    (hs : extractEventType body = JsonValue.str s) :
    classifyPass body event = (effectiveCategory s == event) := by
  unfold classifyPass
  rw [hs, mappedEvent_str]

theorem event_ne_all {e : String} (he : e ∈ watiEventFilters) : e ≠ "all" := by
  fin_cases he <;> decide

theorem event_ne_empty {e : String} (he : e ∈ watiEventFilters) : e ≠ "" := by
  fin_cases he <;> decide

theorem webhook_result_of_ok {r : RawRequest} {b : JsonValue}
    (hb : (acquire r).body = Except.ok b) :
    (webhook r).result = Except.ok (dispatchItems b r.event) := by
  unfold webhook
  rcases h : acquire r with ⟨rb, d, c⟩
  rw [h] at hb
  rcases rb with e | x
  · exact Except.noConfusion hb
  · obtain rfl : x = b := by simpa using hb
    rfl

theorem dispatch_all (body : JsonValue) :
    dispatchItems body "all" = returnJsonArray body := rfl

theorem dispatch_pass {body : JsonValue} {e : String} (hne : e ≠ "all")
    (hcp : classifyPass body e = true) :
    dispatchItems body e = returnJsonArray body := by
  unfold dispatchItems
  rw [hcp]
  simp [hne]

theorem dispatch_reject {body : JsonValue} {e : String} (hne : e ≠ "all")
    (hcp : classifyPass body e = false) : dispatchItems body e = [] := by
  unfold dispatchItems
  rw [hcp]
  simp [hne]

theorem returnJsonArray_not_arr {body : JsonValue}
    (h : ∀ xs, body ≠ JsonValue.arr xs) : returnJsonArray body = [body] := by
  cases body with
  | arr xs => exact absurd rfl (h xs)
  | null => rfl
  | bool b => rfl
  | num n => rfl
  | str t => rfl
  | obj fs => rfl

theorem extractEventType_arr (xs : List JsonValue) :
    extractEventType (JsonValue.arr xs) = JsonValue.str "" := rfl

theorem step1_keys_ok (r : RawRequest) : ∃ ks, jsObjectKeys (step1 r) = Except.ok ks := by
  unfold step1
  split <;> exact ⟨_, rfl⟩

theorem acquire_s1_usable {r : RawRequest} {ks : List String}
    (h : jsObjectKeys (step1 r) = Except.ok ks) (hne : ks ≠ []) :
    acquire r = ⟨Except.ok (step1 r), false, false⟩ := by
  have hl : ¬ ks.length = 0 := fun hh => hne (List.length_eq_zero.mp hh)
  simp only [acquire, h]
  rw [if_neg hl]

theorem acquire_s2_err {r : RawRequest} {e : JsError}
    (h1 : jsObjectKeys (step1 r) = Except.ok [])
    (h2 : jsObjectKeys (step2 r) = Except.error e) :
    acquire r = ⟨Except.error e, true, false⟩ := by
  simp only [acquire, h1, h2, List.length_nil, if_pos]

theorem acquire_s2_usable {r : RawRequest} {ks : List String}
    (h1 : jsObjectKeys (step1 r) = Except.ok [])
    (h2 : jsObjectKeys (step2 r) = Except.ok ks) (hne : ks ≠ []) :
    acquire r = ⟨Except.ok (step2 r), true, false⟩ := by
  have hl : ¬ ks.length = 0 := fun hh => hne (List.length_eq_zero.mp hh)
  simp only [acquire, h1, h2, List.length_nil, if_pos]
  rw [if_neg hl]

theorem acquire_s3_err {r : RawRequest} {e : JsError}
    (h1 : jsObjectKeys (step1 r) = Except.ok [])
    (h2 : jsObjectKeys (step2 r) = Except.ok [])
    (h3 : jsObjectKeys (step3 r (step2 r)) = Except.error e) :
    acquire r = ⟨Except.error e, true, true⟩ := by
  simp only [acquire, h1, h2, h3, List.length_nil, if_pos]

theorem acquire_s3_usable {r : RawRequest} {ks : List String}
    (h1 : jsObjectKeys (step1 r) = Except.ok [])
    (h2 : jsObjectKeys (step2 r) = Except.ok [])
    (h3 : jsObjectKeys (step3 r (step2 r)) = Except.ok ks) (hne : ks ≠ []) :
    acquire r = ⟨Except.ok (step3 r (step2 r)), true, true⟩ := by
  have hl : ¬ ks.length = 0 := fun hh => hne (List.length_eq_zero.mp hh)
  simp only [acquire, h1, h2, h3, List.length_nil, if_pos]
  rw [if_neg hl]

theorem acquire_diag {r : RawRequest}
    (h1 : jsObjectKeys (step1 r) = Except.ok [])
    (h2 : jsObjectKeys (step2 r) = Except.ok [])
    (h3 : jsObjectKeys (step3 r (step2 r)) = Except.ok []) :
    acquire r = ⟨Except.ok (diagnosticBody r), true, true⟩ := by
  simp only [acquire, h1, h2, h3, List.length_nil, if_pos]

theorem str_beq_false_of_ne {a b : String} (h : a ≠ b) : (a == b) = false := by
  cases hq : a == b
  · rfl
  · exact absurd (eq_of_beq hq) h

theorem str_beq_true_of_eq {a b : String} (h : a = b) : (a == b) = true := by
  subst h
  simp

/-- C6: `eventTypeMap` is the static mapping with exactly the nine stated
entries, in source order, with no duplicated key; it is a constant of the
model (a Lean definition admits no mutation), matching the source where
the literal is local to the handler and never written after construction. -/
theorem c6_eventTypeMap_entries :
    eventTypeMap =
      [("message", "messageReceived"),
       ("whatsappMessageReceived", "messageReceived"),
       ("newContactMessage", "newContactMessage"),
       ("sessionMessageSent", "sessionMessageSent"),
       ("templateMessageSent", "templateMessageSent"),
       ("messageDelivered", "messageDelivered"),
       ("messageRead", "messageRead"),
       ("messageReplied", "messageReplied"),
       ("templateMessageFailed", "templateMessageFailed")] ∧
    eventTypeMap.length = 9 ∧ (eventTypeMap.map Prod.fst).Nodup :=
  ⟨rfl, rfl, by decide⟩

/-- A delivery whose pre-parsed body is a two-element JSON array, under
filter `all`. -/
def rC8x : RawRequest :=
  ⟨.ok (.json (.arr [.num "1", .num "2"])), none, none, .undef, "POST",
    none, [], "all"⟩

/-- C8 counterexample: a resolved two-element array body under filter
`all` is fanned out by `returnJsonArray` into two items — more than one
item for a single delivery, and not the resolved body as a single
unwrapped item. -/
theorem c8_counterexample :
    (acquire rC8x).body =
      Except.ok (JsonValue.arr [JsonValue.num "1", JsonValue.num "2"]) ∧
    (webhook rC8x).result = Except.ok [JsonValue.num "1", JsonValue.num "2"] ∧
    [JsonValue.num "1", JsonValue.num "2"].length = 2 :=
  ⟨rfl, rfl, rfl⟩

/-- C8 amended: with the filter set to `all` every body passes, and the
emitted collection is the `returnJsonArray` of the resolved body — the
body itself as one unwrapped item when it is not an array, one item per
element when it is; deliveries resolving to non-array bodies never emit
more than one item. -/
theorem c8_all_passes :
    (∀ body : JsonValue, dispatchItems body "all" = returnJsonArray body) ∧
    (∀ body : JsonValue, (∀ xs, body ≠ JsonValue.arr xs) →
      returnJsonArray body = [body]) ∧
    (∀ (body : JsonValue) (event : String), (∀ xs, body ≠ JsonValue.arr xs) →
      (dispatchItems body event).length ≤ 1) ∧
    (∀ (r : RawRequest) (body : JsonValue), (acquire r).body = Except.ok body →
      r.event = "all" →
      (webhook r).result = Except.ok (returnJsonArray body)) := by
  refine ⟨fun body => rfl, fun body h => returnJsonArray_not_arr h,
    fun body event h => ?_, fun r body hb he => ?_⟩
  · unfold dispatchItems
    split
    · split
      · rw [returnJsonArray_not_arr h]
        simp
      · simp
    · rw [returnJsonArray_not_arr h]
      simp
  · rw [webhook_result_of_ok hb, he, dispatch_all]

/-- C8 witness: a concrete delivery with a non-array body under filter
`all` emits exactly that body as its one item. -/
theorem c8_witness :
    (webhook ⟨.ok (.json (.obj [("anything", .str "x")])), none, none, .undef,
      "POST", none, [], "all"⟩).result =
      Except.ok [JsonValue.obj [("anything", JsonValue.str "x")]] :=
  c8_all_passes.2.2.2
    ⟨.ok (.json (.obj [("anything", .str "x")])), none, none, .undef,
      "POST", none, [], "all"⟩
    (JsonValue.obj [("anything", JsonValue.str "x")]) rfl rfl

/-- C1: under a configured non-wildcard filter, a resolved body whose raw
event type extracts to the string `s` is emitted exactly when the
effective category — the `eventTypeMap` translation of `s`, or `s` itself
when unmapped — equals the filter; on mismatch the result is the empty
item collection, not an error. -/
theorem c1_filter_iff (r : RawRequest) (body : JsonValue) (s : String)
    (hb : (acquire r).body = Except.ok body)
    (he : r.event ∈ watiEventFilters)
    (hs : extractEventType body = JsonValue.str s) :
    ((webhook r).result = Except.ok [body] ↔ effectiveCategory s = r.event) ∧
    (effectiveCategory s ≠ r.event → (webhook r).result = Except.ok []) := by
  have hres := webhook_result_of_ok hb
  have hne := event_ne_all he
  have hcp := classifyPass_str r.event hs
  have hrej : effectiveCategory s ≠ r.event → (webhook r).result = Except.ok [] := by
    intro hc
    rw [hres, dispatch_reject hne (by rw [hcp]; exact str_beq_false_of_ne hc)]
  refine ⟨⟨fun hr => ?_, fun hc => ?_⟩, hrej⟩
  · by_contra hc
    rw [hrej hc] at hr
    simp at hr
  · have hsne : s ≠ "" := by
      intro h0
      subst h0
      exact event_ne_empty he hc.symm
    have hna : returnJsonArray body = [body] := by
      cases body with
      | arr xs =>
          rw [extractEventType_arr] at hs
          exact absurd (JsonValue.str.inj hs).symm hsne
      | null => rfl
      | bool b => rfl
      | num n => rfl
      | str t => rfl
      | obj fs => rfl
    rw [hres, dispatch_pass hne (by rw [hcp]; exact str_beq_true_of_eq hc), hna]

/-- C1 witness: `Eq eventType messageDelivered` under filter
`messageDelivered` is emitted. -/
theorem c1_witness :
    (webhook ⟨.ok (.json (.obj [("eventType", .str "messageDelivered")])), none,
      none, .undef, "POST", some "application/json", [], "messageDelivered"⟩).result =
      Except.ok [JsonValue.obj [("eventType", JsonValue.str "messageDelivered")]] :=
  (c1_filter_iff
    ⟨.ok (.json (.obj [("eventType", .str "messageDelivered")])), none,
      none, .undef, "POST", some "application/json", [], "messageDelivered"⟩
    (JsonValue.obj [("eventType", JsonValue.str "messageDelivered")])
    "messageDelivered" rfl (by decide) rfl).1.mpr rfl

/-- The extraction rule in the spec's words: the first present non-empty
candidate value, else the empty string. -/
def specFirstNonEmpty : List (Option String) → String
  | [] => ""
  | some s :: rest => if s ≠ "" then s else specFirstNonEmpty rest
  | none :: rest => specFirstNonEmpty rest

theorem orChain_strs (es : List (Option String)) :
    orChainEmpty (es.map (fun o => o.map JsonValue.str)) =
      JsonValue.str (specFirstNonEmpty es) := by
  induction es with
  | nil => rfl
  | cons e rest ih =>
      rcases e with _ | s
      · simpa [orChainEmpty, specFirstNonEmpty] using ih
      · by_cases h : s = ""
        · subst h
          simpa [orChainEmpty, specFirstNonEmpty, jsTruthy] using ih
        · simp [orChainEmpty, specFirstNonEmpty, jsTruthy, h]

/-- C7: when the three candidate fields hold strings or are absent, the
raw event type is extracted by probing `eventType`, `event`, `type` in
that order, taking the first present non-empty value, defaulting to the
empty string. -/
theorem c7_extract_priority (body : JsonValue) (e1 e2 e3 : Option String)
    (h1 : jsGetField body "eventType" = e1.map JsonValue.str)
    (h2 : jsGetField body "event" = e2.map JsonValue.str)
    (h3 : jsGetField body "type" = e3.map JsonValue.str) :
    extractEventType body = JsonValue.str (specFirstNonEmpty [e1, e2, e3]) := by
  unfold extractEventType
  rw [h1, h2, h3]
  exact orChain_strs [e1, e2, e3]

/-- C7 witness: an empty `event` is skipped and `type` supplies the raw
event type. -/
theorem c7_witness :
    extractEventType (JsonValue.obj
      [("event", JsonValue.str ""), ("type", JsonValue.str "messageRead")]) =
      JsonValue.str "messageRead" :=
  c7_extract_priority _ none (some "") (some "messageRead") rfl rfl rfl

/-- C10: the diagnostic body carries none of the three candidate keys, so
its raw event type extracts to the empty string; under any configured
non-wildcard filter a delivery that resolved to the diagnostic body emits
zero items. -/
theorem c10_diagnostic_rejected (r : RawRequest) (he : r.event ∈ watiEventFilters) :
    jsGetField (diagnosticBody r) "eventType" = none ∧
    jsGetField (diagnosticBody r) "event" = none ∧
    jsGetField (diagnosticBody r) "type" = none ∧
    extractEventType (diagnosticBody r) = JsonValue.str "" ∧
    ((acquire r).body = Except.ok (diagnosticBody r) →
      (webhook r).result = Except.ok []) := by
  refine ⟨rfl, rfl, rfl, rfl, fun hb => ?_⟩
  rw [webhook_result_of_ok hb]
  have hcp : classifyPass (diagnosticBody r) r.event = ("" == r.event) := rfl
  rw [dispatch_reject (event_ne_all he)
    (by rw [hcp]; exact str_beq_false_of_ne (fun h => event_ne_empty he h.symm))]

/-- C10 witness: a bodiless delivery under filter `messageRead` emits
nothing. -/
theorem c10_witness :
    (webhook ⟨.ok .undef, none, none, .undef, "GET", none, [], "messageRead"⟩).result =
      Except.ok [] :=
  (c10_diagnostic_rejected _ (by decide)).2.2.2.2 rfl

/-- C3: acquisition applies its strategies in fixed priority order — the
raw-stream drain runs exactly when the pre-parsed step left a key-less
body, the direct `req.body` field is read exactly when both earlier steps
left a key-less body, and a usable pre-parsed body (at least one key) is
taken as-is with neither later source consulted. -/
theorem c3_strategy_order :
    (∀ r : RawRequest, (acquire r).drainAttempted = true ↔
        jsObjectKeys (step1 r) = Except.ok []) ∧
    (∀ r : RawRequest, (acquire r).directBodyRead = true ↔
        (jsObjectKeys (step1 r) = Except.ok [] ∧
         jsObjectKeys (step2 r) = Except.ok [])) ∧
    (∀ (r : RawRequest) (ks : List String),
        jsObjectKeys (step1 r) = Except.ok ks → ks ≠ [] →
        acquire r = ⟨Except.ok (step1 r), false, false⟩) := by
  refine ⟨fun r => ?_, fun r => ?_, fun r ks h hne => acquire_s1_usable h hne⟩
  · obtain ⟨ks1, h1⟩ := step1_keys_ok r
    by_cases hk1 : ks1 = []
    · subst hk1
      refine ⟨fun _ => h1, fun _ => ?_⟩
      rcases h2 : jsObjectKeys (step2 r) with e2 | ks2
      · rw [acquire_s2_err h1 h2]
      · by_cases hk2 : ks2 = []
        · subst hk2
          rcases h3 : jsObjectKeys (step3 r (step2 r)) with e3 | ks3
          · rw [acquire_s3_err h1 h2 h3]
          · by_cases hk3 : ks3 = []
            · subst hk3
              rw [acquire_diag h1 h2 h3]
            · rw [acquire_s3_usable h1 h2 h3 hk3]
        · rw [acquire_s2_usable h1 h2 hk2]
    · rw [acquire_s1_usable h1 hk1]
      refine ⟨fun hf => absurd hf (by simp), fun hok => ?_⟩
      exact absurd (Except.ok.inj (h1.symm.trans hok)) hk1
  · obtain ⟨ks1, h1⟩ := step1_keys_ok r
    by_cases hk1 : ks1 = []
    · subst hk1
      rcases h2 : jsObjectKeys (step2 r) with e2 | ks2
      · rw [acquire_s2_err h1 h2]
        refine ⟨fun hf => absurd hf (by simp), fun hok => ?_⟩
        exact Except.noConfusion hok.2
      · by_cases hk2 : ks2 = []
        · subst hk2
          rcases h3 : jsObjectKeys (step3 r (step2 r)) with e3 | ks3
          · rw [acquire_s3_err h1 h2 h3]
            simp [h1, h2]
          · by_cases hk3 : ks3 = []
            · subst hk3
              rw [acquire_diag h1 h2 h3]
              simp [h1, h2]
            · rw [acquire_s3_usable h1 h2 h3 hk3]
              simp [h1, h2]
        · rw [acquire_s2_usable h1 h2 hk2]
          refine ⟨fun hf => absurd hf (by simp), fun hok => ?_⟩
          exact absurd (Except.ok.inj hok.2) hk2
    · rw [acquire_s1_usable h1 hk1]
      refine ⟨fun hf => absurd hf (by simp), fun hok => ?_⟩
      exact absurd (Except.ok.inj (h1.symm.trans hok.1)) hk1

/-- C3 witness: a usable pre-parsed body wins over a populated raw stream
and `req.body`, with neither later source consulted. -/
theorem c3_witness :
    acquire ⟨.ok (.json (.obj [("eventType", .str "x")])), some true,
      some "IGNORED", .buffer "IGNORED2", "POST", none, [], "all"⟩ =
      ⟨Except.ok (JsonValue.obj [("eventType", JsonValue.str "x")]), false, false⟩ :=
  c3_strategy_order.2.2 _ ["eventType"] rfl (by simp)

/-- A request whose pre-parsed body is the well-formed, key-less JSON
object. -/
def rC9x : RawRequest :=
  ⟨.ok (.json (.obj [])), none, none, .undef, "POST", none, [], "all"⟩

/-- C9 counterexample: for the pre-parsed body `\x7b\x7d` — a well-formed
JSON object — the acquired body is the diagnostic record, not that
object. -/
theorem c9_counterexample :
    rC9x.parsedBody = Except.ok (JsValue.json (JsonValue.obj [])) ∧
    (acquire rC9x).body = Except.ok (diagnosticBody rC9x) ∧
    diagnosticBody rC9x ≠ JsonValue.obj [] := by
  refine ⟨rfl, rfl, fun h => ?_⟩
  injection h with hf
  exact List.noConfusion hf

/-- C9 amended: a pre-parsed JSON object body with at least one key is
acquired exactly, with no later strategy running or altering it. -/
theorem c9_nonempty_parsed (r : RawRequest) (fs : List (String × JsonValue))
    (hp : r.parsedBody = Except.ok (JsValue.json (JsonValue.obj fs)))
    (hne : fs ≠ []) :
    acquire r = ⟨Except.ok (JsonValue.obj fs), false, false⟩ := by
  have h1 : step1 r = JsonValue.obj fs := by
    unfold step1
    rw [hp]
  have hk : jsObjectKeys (step1 r) = Except.ok (fs.map Prod.fst) := by
    rw [h1]
    rfl
  have hmap : fs.map Prod.fst ≠ [] := fun h => hne (List.map_eq_nil_iff.mp h)
  have ha := acquire_s1_usable hk hmap
  rw [h1] at ha
  exact ha

/-- C9 witness: a one-key pre-parsed object is acquired exactly even with
a raw stream and `req.body` present. -/
theorem c9_witness :
    acquire ⟨.ok (.json (.obj [("a", .num "1")])), some true,
      some "\x7b\"b\":2\x7d", .buffer "zzz", "POST", some "text/plain", [], "all"⟩ =
      ⟨Except.ok (JsonValue.obj [("a", JsonValue.num "1")]), false, false⟩ :=
  c9_nonempty_parsed _ [("a", JsonValue.num "1")] rfl (by simp)

/-- A delivery whose raw stream carries the four bytes `null`. -/
def rC4 : RawRequest :=
  ⟨.ok .undef, some false, some "null", .undef, "POST",
    some "application/json", [], "messageReceived"⟩

/-- C4 exhibit: the JSON text `null` decodes successfully, strategy 2
assigns the decoded `null` to the body, and the next
`Object.keys(body).length === 0` guard throws a `TypeError` that escapes
the handler — an exception does propagate to the host. -/
theorem c4_null_crash :
    rC4.rawBody = some "null" ∧ jsonParse "null" = some JsonValue.null ∧
    (webhook rC4).result = Except.error JsError.typeError :=
  ⟨rfl, rfl, rfl⟩

/-- A delivery whose raw stream carries the two bytes of an empty JSON
object. -/
def rC5x : RawRequest :=
  ⟨.ok .undef, none, some "\x7b\x7d", .undef, "POST", none, [], "all"⟩

/-- C5 counterexample: the raw bytes `\x7b\x7d` decode as JSON, yet the
acquired body is the diagnostic record, not the decoded (empty) object. -/
theorem c5_counterexample :
    jsonParse "\x7b\x7d" = some (JsonValue.obj []) ∧
    rC5x.rawBody = some "\x7b\x7d" ∧
    (acquire rC5x).body = Except.ok (diagnosticBody rC5x) ∧
    diagnosticBody rC5x ≠ JsonValue.obj [] := by
  refine ⟨rfl, rfl, rfl, fun h => ?_⟩
  injection h with hf
  exact List.noConfusion hf

/-- C5 amended: when the only recoverable content is raw text (from the
drained stream, or from the direct body field with the stream empty),
text that decodes to a JSON value with at least one enumerable key is
acquired as that decoded value, and text that does not decode is acquired
as `rawData`-wrapped. -/
theorem c5_raw_bytes :
    (∀ (r : RawRequest) (s : String),
      jsObjectKeys (step1 r) = Except.ok [] → rawRecovered r = some s →
      (∀ (v : JsonValue) (ks : List String), jsonParse s = some v →
          jsObjectKeys v = Except.ok ks → ks ≠ [] →
          (acquire r).body = Except.ok v) ∧
      (jsonParse s = none →
          (acquire r).body = Except.ok (JsonValue.obj [("rawData", JsonValue.str s)]))) ∧
    (∀ (r : RawRequest) (s : String),
      jsObjectKeys (step1 r) = Except.ok [] → rawRecovered r = none →
      directContent r.reqBody = some s →
      (∀ (v : JsonValue) (ks : List String), jsonParse s = some v →
          jsObjectKeys v = Except.ok ks → ks ≠ [] →
          (acquire r).body = Except.ok v) ∧
      (jsonParse s = none →
          (acquire r).body = Except.ok (JsonValue.obj [("rawData", JsonValue.str s)]))) := by
  constructor
  · intro r s h1 hs
    have hstep2 : step2 r = decodeOrWrap s := by
      unfold step2
      rw [hs]
    constructor
    · intro v ks hp hk hne
      have hv : step2 r = v := by
        rw [hstep2]
        unfold decodeOrWrap
        rw [hp]
      have h2 : jsObjectKeys (step2 r) = Except.ok ks := by
        rw [hv]
        exact hk
      rw [acquire_s2_usable h1 h2 hne, hv]
    · intro hp
      have hv : step2 r = JsonValue.obj [("rawData", JsonValue.str s)] := by
        rw [hstep2]
        unfold decodeOrWrap
        rw [hp]
      have h2 : jsObjectKeys (step2 r) = Except.ok ["rawData"] := by
        rw [hv]
        rfl
      rw [acquire_s2_usable h1 h2 (by simp), hv]
  · intro r s h1 hraw hs
    have hstep2 : step2 r = step1 r := by
      unfold step2
      rw [hraw]
    have h2 : jsObjectKeys (step2 r) = Except.ok [] := by
      rw [hstep2]
      exact h1
    have hstep3 : step3 r (step2 r) = decodeOrWrap s := by
      unfold step3
      rw [hs]
    constructor
    · intro v ks hp hk hne
      have hv : step3 r (step2 r) = v := by
        rw [hstep3]
        unfold decodeOrWrap
        rw [hp]
      have h3 : jsObjectKeys (step3 r (step2 r)) = Except.ok ks := by
        rw [hv]
        exact hk
      rw [acquire_s3_usable h1 h2 h3 hne, hv]
    · intro hp
      have hv : step3 r (step2 r) = JsonValue.obj [("rawData", JsonValue.str s)] := by
        rw [hstep3]
        unfold decodeOrWrap
        rw [hp]
      have h3 : jsObjectKeys (step3 r (step2 r)) = Except.ok ["rawData"] := by
        rw [hv]
        rfl
      rw [acquire_s3_usable h1 h2 h3 (by simp), hv]

/-- A delivery whose only content is raw-stream bytes holding a one-key
JSON object. -/
def rC5w : RawRequest :=
  ⟨.ok .undef, some false, some "\x7b\"eventType\":\"messageDelivered\"\x7d",
    .undef, "POST", none, [], "all"⟩

/-- C5 witness: raw-stream bytes holding a one-key JSON object are
acquired as the decoded object. -/
theorem c5_witness :
    (acquire rC5w).body =
      Except.ok (JsonValue.obj [("eventType", JsonValue.str "messageDelivered")]) :=
  (c5_raw_bytes.1 rC5w "\x7b\"eventType\":\"messageDelivered\"\x7d" rfl rfl).1
    (JsonValue.obj [("eventType", JsonValue.str "messageDelivered")]) ["eventType"]
    rfl rfl (by simp)

/-- A delivery with no pre-parsed body or `req.body` whose raw stream
carries the JSON text `null`: every strategy yields nothing usable. -/
def rC2x : RawRequest :=
  ⟨.ok .undef, some false, some "null", .undef, "POST", some "text/plain", [], "all"⟩

/-- C2 counterexample: with nothing usable recovered by any strategy (the
raw stream's `null` decodes to a value that is not a non-null keyed
object), the handler does not produce the diagnostic record — it throws. -/
theorem c2_counterexample :
    rC2x.parsedBody = Except.ok JsValue.undef ∧
    rC2x.rawBody = some "null" ∧ rC2x.reqBody = JsValue.undef ∧
    jsonParse "null" = some JsonValue.null ∧
    (acquire rC2x).body = Except.error JsError.typeError :=
  ⟨rfl, rfl, rfl, rfl, rfl⟩

/-- C2 amended: when strategy 1 leaves a key-less body, the raw stream
recovers nothing or only text decoding to a non-null key-less JSON value,
and `req.body` likewise offers no content or only such text, the acquired
body is the diagnostic record with its five fields (`not set` standing in
for an absent or empty content type). -/
theorem c2_diagnostic (r : RawRequest)
    (h1 : jsObjectKeys (step1 r) = Except.ok [])
    (h2 : rawRecovered r = none ∨
      ∃ s v, rawRecovered r = some s ∧ jsonParse s = some v ∧
        jsObjectKeys v = Except.ok [])
    (h3 : directContent r.reqBody = none ∨
      ∃ s v, directContent r.reqBody = some s ∧ jsonParse s = some v ∧
        jsObjectKeys v = Except.ok []) :
    (acquire r).body = Except.ok (diagnosticBody r) ∧
    diagnosticBody r = JsonValue.obj
      [("_webhookReceived", JsonValue.bool true),
       ("_bodyEmpty", JsonValue.bool true),
       ("_contentType", JsonValue.str (contentTypeOrSentinel r)),
       ("_method", JsonValue.str r.method),
       ("_query", JsonValue.obj r.query)] := by
  refine ⟨?_, rfl⟩
  have hstep2 : jsObjectKeys (step2 r) = Except.ok [] := by
    rcases h2 with h | ⟨s, v, hs, hp, hk⟩
    · have e : step2 r = step1 r := by
        unfold step2
        rw [h]
      rw [e]
      exact h1
    · have e1 : step2 r = decodeOrWrap s := by
        unfold step2
        rw [hs]
      have e : step2 r = v := by
        rw [e1]
        unfold decodeOrWrap
        rw [hp]
      rw [e]
      exact hk
  have hstep3 : jsObjectKeys (step3 r (step2 r)) = Except.ok [] := by
    rcases h3 with h | ⟨s, v, hs, hp, hk⟩
    · have e : step3 r (step2 r) = step2 r := by
        unfold step3
        rw [h]
      rw [e]
      exact hstep2
    · have e1 : step3 r (step2 r) = decodeOrWrap s := by
        unfold step3
        rw [hs]
      have e : step3 r (step2 r) = v := by
        rw [e1]
        unfold decodeOrWrap
        rw [hp]
      rw [e]
      exact hk
  rw [acquire_diag h1 hstep2 hstep3]

/-- A delivery with a throwing `getBodyData`, an empty raw buffer, a
non-string non-buffer `req.body` and an empty content-type header. -/
def rC2w : RawRequest :=
  ⟨.error (), none, some "", .json (.bool true), "POST", some "",
    [("q", JsonValue.str "1")], "all"⟩

/-- C2 witness: such a delivery resolves to the concrete diagnostic
record. -/
theorem c2_witness :
    (acquire rC2w).body =
      Except.ok (JsonValue.obj
        [("_webhookReceived", JsonValue.bool true),
         ("_bodyEmpty", JsonValue.bool true),
         ("_contentType", JsonValue.str "not set"),
         ("_method", JsonValue.str "POST"),
         ("_query", JsonValue.obj [("q", JsonValue.str "1")])]) :=
  (c2_diagnostic rC2w rfl (Or.inl rfl) (Or.inl rfl)).1
